import Mathlib

/-!
Shallow embedding of `src/markdown/generate-readme.ts` from the
react-ui-roundup repository, together with models of the small text-markup
utility layer that the file imports (that layer is not part of the sources
provided, so it is modelled from the specification, §4.1).  The entity
collections (`frameworks`, `componentInfo`, `frameworkInfo`) are authored
data supplied by a collaborator, so every definition here is parametric in
them.
-/

namespace RUR

/-- A repository license as returned by the stats collaborator. -/
structure License where
  name : String
deriving DecidableEq

/-- Repository statistics as returned by the stats collaborator; the
generator indexes these records by their `html_url` field. -/
structure RepoInfo where
  html_url : String
  stargazers_count : Nat
  forks_count : Nat
  open_issues_count : Nat
  license : Option License
deriving DecidableEq

/-- A framework-authored component entry (`Component` in `entities`). -/
structure Component where
  componentId : String
  componentName : String
  componentURL : String
  options : List (String × String)
deriving DecidableEq

/-- A framework entry (`Framework` in `entities`). -/
structure Framework where
  frameworkId : String
  frameworkName : String
  frameworkHomepage : String
  repoURL : String
  components : List Component
  frameworkFeaturesById : List (String × String)
deriving DecidableEq

/-- An option of a component descriptor: name, judging criterion and the
rendering function mapping a (possibly absent) raw value to display text. -/
structure OptionInfo where
  optionId : String
  name : String
  criteria : String
  toMarkdown : Option String → String

/-- The duck-typed `description` field: a plain string or a rich variant
carrying markdown. -/
inductive Description where
  | plain (text : String)
  | rich (markdown : String)

/-- A component descriptor (an entry of the `componentInfo` registry). -/
structure ComponentInfo where
  componentId : String
  cannonicalName : String
  description : Description
  indefiniteArticle : String
  optionsById : List (String × OptionInfo)

/-- An entry of the `frameworkInfo` registry used by the framework-features
section. -/
structure FrameworkFeature where
  featureId : String
  name : String
  criteria : String
  toMarkdown : Option String → String

/-! ### String helpers (JS built-ins used by the generator) -/

/-- Whether `pat` is an initial segment of `l` (character-list matching). -/
def leadMatch : List Char → List Char → Bool
  | [], _ => true
  | _ :: _, [] => false
  | p :: ps, c :: cs => p == c && leadMatch ps cs

/-- JS `String.prototype.replace` with a non-global literal pattern and the
empty replacement: the first occurrence of `pat`, if any, is removed. -/
def removeFirstList (pat : List Char) : List Char → List Char
  | [] => []
  | c :: rest =>
    if leadMatch pat (c :: rest) then (c :: rest).drop pat.length
    else c :: removeFirstList pat rest

/-- Whether `pat` occurs as a contiguous segment of `l`. -/
def containsSub (pat : List Char) : List Char → Bool
  | [] => pat.isEmpty
  | c :: rest => leadMatch pat (c :: rest) || containsSub pat rest

/-- String-level wrapper of `removeFirstList`. -/
def removeFirst (pat s : String) : String :=
  ⟨removeFirstList pat.data s.data⟩

/-- Grouping step for thousands separators: applied to reversed digits, a
comma is emitted before each character reached with the counter at zero. -/
def commaGroupsAux : Nat → List Char → List Char
  | _, [] => []
  | 0, c :: rest => ',' :: c :: commaGroupsAux 2 rest
  | Nat.succ k, c :: rest => c :: commaGroupsAux k rest

/-- JS `Number.prototype.toLocaleString` for naturals in the generator's
locale: decimal digits with comma thousands separators. -/
def toLocaleString (n : Nat) : String :=
  ⟨(commaGroupsAux 3 (toString n).data.reverse).reverse⟩

/-- Ordered insertion used to model ramda `sortBy(prop('name'))`. -/
def insertSorted (x : OptionInfo) : List OptionInfo → List OptionInfo
  | [] => [x]
  | y :: ys => if x.name ≤ y.name then x :: y :: ys else y :: insertSorted x ys

/-- Ramda `sortBy(prop('name'))`: sort the option records by `name`. -/
def sortByName (l : List OptionInfo) : List OptionInfo :=
  l.foldr insertSorted []

/-- Ramda `indexBy`: build a lookup keyed by `key`; when several elements
share a key, the later one wins, hence the last matching element. -/
def indexBy {α : Type} (key : α → String) (xs : List α) : String → Option α :=
  fun k => (xs.filter (fun x => key x == k)).getLast?

/-- Assoc-list field access, modelling JS `obj[key]` (`undefined` when the
key is absent). -/
def lookupField (k : String) : List (String × String) → Option String
  | [] => none
  | (k', v) :: rest => if k' == k then some v else lookupField k rest

/-! ### Text-markup builder -/

/-- Modelled from the spec: level-1 heading constructor of the markup
layer (§4.1 `heading`). -/
def h1 (text : String) : String := "# " ++ text

/-- Modelled from the spec: level-2 heading constructor (§4.1). -/
def h2 (text : String) : String := "## " ++ text

/-- Modelled from the spec: paragraph block; text passes through with no
extra escaping (§4.1). -/
def p (text : String) : String := text

/-- Modelled from the spec: block quote constructor (§4.1). -/
def quote (text : String) : String := "> " ++ text

/-- Modelled from the spec: clickable-reference constructor (§4.1
`link`). -/
def link (text href : String) : String :=
  "[" ++ text ++ "](" ++ href ++ ")"

/-- Modelled from the spec: inline-code fragment (§4.1). -/
def inlineCode (text : String) : String := "`" ++ text ++ "`"

/-- One emitted table row. -/
def tableRow (cells : List String) : String :=
  "| " ++ String.intercalate " | " cells ++ " |"

/-- Modelled from the spec: table constructor; content is emitted as-is
with no column-width computation (§4.1; the malformed-row fail-fast path
of §7 is not modelled since no claim depends on it). -/
def table (headers : List String) (rows : List (List String)) : String :=
  String.intercalate "\n"
    (tableRow headers :: tableRow (headers.map (fun _ => "---")) :: rows.map tableRow)

/-- Modelled from the spec: criteria block, one bullet per pair rendered
as bold name plus criterion text (§4.1). -/
def criteria (pairs : List (String × String)) : String :=
  String.intercalate "\n"
    (pairs.map (fun pair => "- **" ++ pair.fst ++ "**: " ++ pair.snd))

/-- Join step of the line joiner: blocks separated by one blank line. -/
def joinBlocks : List String → String
  | [] => ""
  | [b] => b
  | b :: rest => b ++ "\n\n" ++ joinBlocks rest

/-- Modelled from the spec: `lines` joins blocks with a single separating
blank line, dropping blocks that produce empty content (§4.1). -/
def lines (blocks : List String) : String :=
  joinBlocks (blocks.filter (fun b => !(b == "")))

/-- Modelled from the spec: the defined placeholder token for any missing
statistic or option value (§4.3 names `"N/A"` as the example token). -/
def noValue : String := "N/A"

/-- Modelled from the spec: strip the URL scheme from a displayed URL. -/
def removeProtocol (s : String) : String :=
  if leadMatch "https://".data s.data then ⟨s.data.drop 8⟩
  else if leadMatch "http://".data s.data then ⟨s.data.drop 7⟩
  else s

/-- Modelled from the spec: the issue-filing URL constant of the shared
utils module. -/
def issueURL : String := "https://github.com/dimitropoulos/react-ui-roundup/issues/new"

/-- Modelled from the spec: the canonical live-site link of the shared
utils module. -/
def websiteHref : String := "https://react-ui-roundup.dimitrimitropoulos.com"

/-- Modelled from the spec: the rendered live-site link. -/
def website : String := link "react-ui-roundup.dimitrimitropoulos.com" websiteHref

/-- Ordered insertion by key for `toStablePairs`. -/
def insertPair {α : Type} (x : String × α) : List (String × α) → List (String × α)
  | [] => [x]
  | y :: ys => if x.fst ≤ y.fst then x :: y :: ys else y :: insertPair x ys

/-- Modelled from the spec: stable ordered pairs of an option registry,
sorted by key so that re-rendering is byte-identical (§8 idempotence). -/
def toStablePairs {α : Type} (l : List (String × α)) : List (String × α) :=
  l.foldr insertPair []

/-! ### The generator (`src/markdown/generate-readme.ts`) -/

/-- The `pleaseFileIssue` link constant. -/
def pleaseFileIssue : String := link "Please file an issue" issueURL

/-- The fixed header section of the report. -/
def headerMarkdown : String := lines [
  h1 "React UI Roundup",
  p "Are you a frontend developer or designer?  Do you wish you had a one-stop-shop you could go to see the various implementations of common components?  If so - React UI Roundup is for you!",
  p ("I decided to make this project " ++ link "while contributing an Alert component to material-ui" "https://github.com/mui-org/material-ui/issues/18094" ++ ". While thinking about that component, it was HUGELY helpful to review other implementations from everything from feature set, DOM structure, CSS usage, theming integration, prop naming, and more. I wanted something where I could stand back at a distance and look at many high-quality implementations of a similar component while I researched - so I made this project."),
  p ("An even more better version of this exact document is available at " ++ website ++ ".  It has special \"Open All\" buttons that allow you to open every link in a table with one click!  Also, the Framework Statistics section on the website is always up to date since it pulls the data in realtime when you load the page.")
]

/-- The fixed footer section of the report. -/
def howToMakeAChange : String := lines [
  h1 "How to Make a Change",
  p ("The README.md and website are both autogenerated from the same source input files.  For convenience, there is exactly one file for each project that has all the information for that project, located in the " ++ link (inlineCode "frameworks directory") "https://github.com/dimitropoulos/react-ui-roundup/tree/master/frameworks" ++ ".  To update any given data point, simply make a change to one of those files and run " ++ inlineCode "yarn generate" ++ ".")
]

/-- The license-cell transformation: JS `name.replace(/ License/, "")`,
removing the first occurrence of the literal text. -/
def stripLicense (name : String) : String := removeFirst " License" name

/-- One row of the framework-statistics table, for one framework, reading
the stats from the `html_url`-keyed lookup built by `fetchAll`. -/
def statsRow (repoInfo : String → Option RepoInfo) (fw : Framework) : List String := [
  fw.frameworkName,
  link (removeProtocol fw.frameworkHomepage) fw.frameworkHomepage,
  link (removeFirst "github.com/" (removeProtocol fw.repoURL)) fw.repoURL,
  ((repoInfo fw.repoURL).map (fun r => toLocaleString r.stargazers_count)).getD noValue,
  ((repoInfo fw.repoURL).map (fun r => toLocaleString r.forks_count)).getD noValue,
  ((repoInfo fw.repoURL).map (fun r => toLocaleString r.open_issues_count)).getD noValue,
  (((repoInfo fw.repoURL).bind (fun r => r.license)).map (fun l => stripLicense l.name)).getD noValue
]

/-- The `Framework Statistics` section (`frameworksSectionMarkdown`); the
render-time timestamp is passed in as `now`. -/
def frameworksSectionMarkdown (repoInfo : String → Option RepoInfo) (now : String)
    (frameworks : List Framework) : String := lines [
  h2 "Framework Statistics",
  table ["Name", "Homepage", "Repository", "Stars", "Forks", "Issues", "License"]
    (frameworks.map (statsRow repoInfo)),
  quote ("all of the above statistics were last updated " ++ now ++ ".  For real-time data, " ++ link "see the website" websiteHref ++ ".")
]

/-- The `Framework Features` section (`frameworkFeaturesSectionMarkdown`). -/
def frameworkFeaturesSectionMarkdown (frameworkInfo : List FrameworkFeature)
    (frameworks : List Framework) : String := lines [
  h2 "Framework Features",
  criteria (frameworkInfo.map (fun fi => (fi.name, fi.criteria))),
  table ("Name" :: frameworkInfo.map (fun fi => fi.name))
    (frameworks.map (fun fw =>
      fw.frameworkName ::
        frameworkInfo.map (fun fi => fi.toMarkdown (lookupField fi.featureId fw.frameworkFeaturesById))))
]

/-- The whole `Frameworks` top-level section (`frameworksMarkdown`). -/
def frameworksMarkdown (repoInfo : String → Option RepoInfo) (now : String)
    (frameworks : List Framework) (frameworkInfo : List FrameworkFeature) : String := lines [
  h1 "Frameworks",
  frameworksSectionMarkdown repoInfo now frameworks,
  frameworkFeaturesSectionMarkdown frameworkInfo frameworks
]

/-- A component enriched with its owning framework's id and name
(`EnhancedComponent`). -/
structure EnhancedComponent where
  componentId : String
  componentName : String
  componentURL : String
  options : List (String × String)
  frameworkId : String
  frameworkName : String
deriving DecidableEq

/-- Enrichment of one component with its framework's identity. -/
def enhance (fw : Framework) (c : Component) : EnhancedComponent :=
  { componentId := c.componentId, componentName := c.componentName,
    componentURL := c.componentURL, options := c.options,
    frameworkId := fw.frameworkId, frameworkName := fw.frameworkName }

/-- The flattened `enhancedComponents` collection: every component of
every framework, tagged with the framework's id and name. -/
def enhancedComponents (frameworks : List Framework) : List EnhancedComponent :=
  frameworks.flatMap (fun fw => fw.components.map (enhance fw))

/-- The `optionsArray` of a descriptor: its option records sorted by
name. -/
def optionsArrayOf (desc : ComponentInfo) : List OptionInfo :=
  sortByName (desc.optionsById.map Prod.snd)

/-- The `headers` of a descriptor's feature-matrix table. -/
def headersOf (desc : ComponentInfo) : List String :=
  ["Framework", "Name"] ++ (optionsArrayOf desc).map (fun oi => oi.name)

/-- One body row of a descriptor's feature-matrix table, for one enhanced
component. -/
def rowFor (optionsArray : List OptionInfo) (ec : EnhancedComponent) : List String :=
  [ec.frameworkName, link ec.componentName ec.componentURL] ++
    optionsArray.map (fun oi => oi.toMarkdown (lookupField oi.optionId ec.options))

/-- The `rows` of a descriptor's feature-matrix table: enhanced
components filtered to the descriptor's `componentId`, each rendered as a
row. -/
def rowsFor (desc : ComponentInfo) (frameworks : List Framework) : List (List String) :=
  ((enhancedComponents frameworks).filter (fun ec => ec.componentId == desc.componentId)).map
    (rowFor (optionsArrayOf desc))

/-- The `frameworkId`s present among the enhanced components filtered to
`componentId` (the `pluck('frameworkId')` stage). -/
def presentIds (frameworks : List Framework) (componentId : String) : List String :=
  ((enhancedComponents frameworks).filter (fun ec => ec.componentId == componentId)).map
    (fun ec => ec.frameworkId)

/-- The `reject` stage of `missingFrameworks`: the frameworks whose id is
not among the present ids, in original collection order. -/
def missingList (frameworks : List Framework) (componentId : String) : List Framework :=
  frameworks.filter (fun fw => !((presentIds frameworks componentId).contains fw.frameworkId))

/-- The `switch` stage of `missingFrameworks`, operating on the list of
links already interspersed with `", "` and dispatching on its length. -/
def grammarStage (elements : List String) : List String :=
  match elements.length with
  | 0 => []
  | 1 => elements
  | 3 => elements.set 1 " and "
  | _ => elements.set (elements.length - 2) ", and "

/-- The sentence-appending stage of `missingFrameworks`: when any element
survived the grammar stage, append the natural-language tail, pluralizing
by whether exactly one element remains. -/
def sentenceStage (desc : ComponentInfo) (elements : List String) : List String :=
  if elements.length > 0 then
    elements ++ [" appear" ++ (if elements.length == 1 then "s" else "") ++
      " to be missing " ++ desc.indefiniteArticle ++ " " ++ desc.cannonicalName ++
      " component. " ++ pleaseFileIssue ++ " if one now exists.\n"]
  else []

/-- Final stages of `missingFrameworks` applied to the rendered links of
the missing frameworks: intersperse, grammar switch, sentence, `concatAll`
and the block-quote guard. -/
def renderMissing (desc : ComponentInfo) (links : List String) : String :=
  let line := String.join (sentenceStage desc (grammarStage (List.intersperse ", " links)))
  if line.length > 0 then quote line else ""

/-- The `missingFrameworks` block for one descriptor. -/
def missingFrameworksBlock (frameworks : List Framework) (desc : ComponentInfo) : String :=
  renderMissing desc
    ((missingList frameworks desc.componentId).map (fun fw => link fw.frameworkName fw.repoURL))

/-- The `description` resolution: a plain string passes through, the rich
variant contributes its markdown. -/
def descriptionText : Description → String
  | Description.plain text => text
  | Description.rich markdown => markdown

/-- The five blocks contributed by one descriptor to the `Components`
section. -/
def componentBlocksFor (desc : ComponentInfo) (frameworks : List Framework) : List String := [
  h2 desc.cannonicalName,
  p (descriptionText desc.description),
  criteria ((toStablePairs desc.optionsById).map (fun kv => (kv.snd.name, kv.snd.criteria))),
  table (headersOf desc) (rowsFor desc frameworks),
  missingFrameworksBlock frameworks desc
]

/-- The whole `Components` top-level section (`componentsMarkdown`). -/
def componentsMarkdown (componentInfo : List ComponentInfo)
    (frameworks : List Framework) : String :=
  lines (h1 "Components" :: componentInfo.flatMap (fun desc => componentBlocksFor desc frameworks))

/-- The readme assembled by `fetchAll` after the fan-in barrier: the
fetched results (absent for failed fetches) are compacted, indexed by
`html_url`, and the four top-level sections are joined in fixed order. -/
def readmeDoc (fetched : List (Option RepoInfo)) (now : String)
    (frameworks : List Framework) (componentInfo : List ComponentInfo)
    (frameworkInfo : List FrameworkFeature) : String := lines [
  headerMarkdown,
  frameworksMarkdown (indexBy RepoInfo.html_url (fetched.filterMap id)) now frameworks frameworkInfo,
  componentsMarkdown componentInfo frameworks,
  howToMakeAChange
]

/-- Whether a framework records an implementation of the given component
kind among its components: the claim-level notion of a present
framework. -/
def implementsComponent (fw : Framework) (componentId : String) : Bool :=
  fw.components.any (fun c => c.componentId == componentId)

/-- The frameworks implementing a component kind, in collection order. -/
def presentList (frameworks : List Framework) (componentId : String) : List Framework :=
  frameworks.filter (fun fw => implementsComponent fw componentId)

/-- Removal of every component entry carrying a given `componentId` from
every framework, leaving the frameworks themselves in place. -/
def eraseComponentId (cid : String) (frameworks : List Framework) : List Framework :=
  frameworks.map (fun fw =>
    { fw with components := fw.components.filter (fun c => !(c.componentId == cid)) })

/-! ### Example entities used by counterexamples and witnesses -/

/-- A sample descriptor option whose renderer falls back to the
placeholder. -/
def exOptX : OptionInfo :=
  OptionInfo.mk "x" "closable" "can the alert be closed" (fun v => v.getD noValue)

/-- A sample `Alert` descriptor with one option. -/
def exDescA : ComponentInfo :=
  ComponentInfo.mk "alert" "Alert" (Description.plain "a message box") "an" [("x", exOptX)]

/-- A sample framework with no components. -/
def exFwA : Framework :=
  Framework.mk "fa" "A" "https://a.com" "https://github.com/a/a" [] []

/-- A second sample framework with no components. -/
def exFwB : Framework :=
  Framework.mk "fb" "B" "https://b.com" "https://github.com/b/b" [] []

/-- A third sample framework with no components. -/
def exFwC : Framework :=
  Framework.mk "fc" "C" "https://c.com" "https://github.com/c/c" [] []

/-- A sample alert component authored by framework `A`. -/
def exCompAlert : Component :=
  Component.mk "alert" "AAlert" "https://a.com/alert" [("x", "yes")]

/-- A sample component whose `componentId` matches no descriptor. -/
def exCompOrphan : Component :=
  Component.mk "zorph" "AZorph" "https://a.com/zorph" []

/-- Framework `A` equipped with its alert component. -/
def exFwA2 : Framework :=
  Framework.mk "fa" "A" "https://a.com" "https://github.com/a/a" [exCompAlert] []

/-- Framework `A` equipped with its alert component and an orphan
component. -/
def exFwA3 : Framework :=
  Framework.mk "fa" "A" "https://a.com" "https://github.com/a/a" [exCompAlert, exCompOrphan] []

/-- A fetched stats record whose `html_url` carries a trailing slash,
unlike the authored `repoURL` of `exFwA`. -/
def exRepoSlash : RepoInfo :=
  RepoInfo.mk "https://github.com/a/a/" 1234 56 7 (some (License.mk "MIT License"))

/-- A fetched stats record matching `exFwA` exactly, with an Apache
license name whose " License" text sits mid-string. -/
def exRepoApache : RepoInfo :=
  RepoInfo.mk "https://github.com/a/a" 1234 56 7 (some (License.mk "Apache License 2.0"))

/-! ### Helper lemmas -/

/-- Strings with equal character data are equal. -/
theorem string_data_inj {a b : String} (h : a.data = b.data) : a = b :=
  congrArg String.mk h

/-- A string that appends onto a nonempty one is nonempty. -/
theorem append_beq_empty_eq_false (a b : String) (h : (a == "") = false) :
    ((a ++ b) == "") = false := by
  rw [beq_eq_false_iff_ne] at h ⊢
  intro hc
  apply h
  apply string_data_inj
  have := congrArg String.data hc
  rw [String.data_append] at this
  simpa using (List.append_eq_nil.mp this).1

/-- All four stat cells of a framework row render the placeholder when the
lookup has no entry for the framework's repository URL. -/
theorem statsRow_of_lookup_none (repoInfo : String → Option RepoInfo) (fw : Framework)
    (h : repoInfo fw.repoURL = none) :
    (statsRow repoInfo fw).drop 3 = [noValue, noValue, noValue, noValue] := by
  simp [statsRow, h]

/-- The interspersed list of a nonempty list has odd length `2·n − 1`. -/
theorem length_intersperse_of_ne {α : Type} (sep : α) :
    ∀ l : List α, l ≠ [] → (List.intersperse sep l).length = 2 * l.length - 1
  | [], h => absurd rfl h
  | [_], _ => rfl
  | a :: b :: t, _ => by
    rw [List.intersperse_cons_cons]
    have ih := length_intersperse_of_ne sep (b :: t) (by simp)
    simp only [List.length_cons] at ih ⊢
    omega

/-- The grammar switch preserves the length of its input. -/
theorem length_grammarStage (elements : List String) :
    (grammarStage elements).length = elements.length := by
  unfold grammarStage
  split <;> simp_all [List.length_set]

/-- Joining after appending a single last string appends it to the join. -/
theorem join_append_single (l : List String) (s : String) :
    String.join (l ++ [s]) = String.join l ++ s := by
  simp [String.join, List.foldl_append]

/-- When the pattern occurs nowhere in the list, first-occurrence removal
leaves the list unchanged. -/
theorem removeFirstList_of_not_containsSub (pat : List Char) :
    ∀ l : List Char, containsSub pat l = false → removeFirstList pat l = l
  | [], _ => rfl
  | c :: rest, h => by
    unfold containsSub at h
    rw [Bool.or_eq_false_iff] at h
    unfold removeFirstList
    rw [h.1, if_neg (by simp)]
    rw [removeFirstList_of_not_containsSub pat rest h.2]

/-- A pattern matches at the front of itself followed by anything. -/
theorem leadMatch_append_self : ∀ (pat suf : List Char), leadMatch pat (pat ++ suf) = true
  | [], _ => rfl
  | p :: ps, suf => by
    unfold leadMatch
    simp [leadMatch_append_self ps suf]

/-- Removal of a pattern sitting at the very front deletes exactly that
occurrence. -/
theorem removeFirstList_append_self (pat suf : List Char) :
    removeFirstList pat (pat ++ suf) = suf := by
  cases pat with
  | nil =>
    cases suf with
    | nil => rfl
    | cons c rest => simp [removeFirstList, leadMatch]
  | cons p ps =>
    have hlead := leadMatch_append_self (p :: ps) suf
    rw [List.cons_append] at hlead ⊢
    simp only [removeFirstList]
    rw [if_pos hlead, ← List.cons_append]
    exact List.drop_left (p :: ps) suf

/-- First-occurrence removal deletes exactly the occurrence at the first
matching position: when no position inside `pre` starts a match, the
pattern spliced between `pre` and `suf` is removed whole. -/
theorem removeFirstList_first_occurrence :
    ∀ (pre suf pat : List Char),
      (∀ i, i < pre.length → leadMatch pat ((pre ++ pat ++ suf).drop i) = false) →
      removeFirstList pat (pre ++ pat ++ suf) = pre ++ suf
  | [], suf, pat, _ => by
    simpa using removeFirstList_append_self pat suf
  | c :: pre', suf, pat, h => by
    have h0 := h 0 (by simp)
    simp only [List.drop_zero] at h0
    simp only [List.cons_append] at h0 ⊢
    unfold removeFirstList
    rw [h0, if_neg (by simp)]
    rw [removeFirstList_first_occurrence pre' suf pat (fun i hi => by
      have := h (i + 1) (by simpa using Nat.succ_lt_succ hi)
      simpa [List.cons_append] using this)]

/-- Ordered insertion grows the length by one. -/
theorem length_insertSorted (x : OptionInfo) :
    ∀ l : List OptionInfo, (insertSorted x l).length = l.length + 1
  | [] => rfl
  | y :: ys => by
    unfold insertSorted
    split
    · rfl
    · simp [length_insertSorted x ys]

/-- Sorting the options by name preserves the length. -/
theorem length_sortByName : ∀ l : List OptionInfo, (sortByName l).length = l.length
  | [] => rfl
  | x :: xs => by
    have ih := length_sortByName xs
    unfold sortByName at ih ⊢
    simp [List.foldr_cons, length_insertSorted, ih]

/-! ### Claims -/

/-- C5: for every framework whose repository URL is absent from the stats
lookup structure, all four statistics columns (stars, forks, issues,
license) render the placeholder token; the cells are total, so no error
can be thrown and no cell is left blank. -/
theorem c5_absent_url_renders_placeholders (repoInfo : String → Option RepoInfo)
    (fw : Framework) (h : repoInfo fw.repoURL = none) :
    (statsRow repoInfo fw).drop 3 = [noValue, noValue, noValue, noValue] :=
  statsRow_of_lookup_none repoInfo fw h

/-- Witness for C5 at a concrete framework and the empty lookup. -/
theorem c5_absent_url_renders_placeholders_witness :
    (statsRow (fun _ => none) exFwA).drop 3 = [noValue, noValue, noValue, noValue] :=
  c5_absent_url_renders_placeholders (fun _ => none) exFwA rfl

/-- C10: fetched stats are indexed by the `html_url` of each compacted
result, so whenever no fetched result's `html_url` is character-for-character
equal to a framework's authored `repoURL` — in particular when a successful
fetch reports a differing `html_url` — every statistics column of that
framework renders the placeholder token. -/
theorem c10_indexed_by_html_url (fetched : List (Option RepoInfo)) (fw : Framework)
    (h : ∀ r ∈ fetched.filterMap id, r.html_url ≠ fw.repoURL) :
    (statsRow (indexBy RepoInfo.html_url (fetched.filterMap id)) fw).drop 3 =
      [noValue, noValue, noValue, noValue] := by
  apply statsRow_of_lookup_none
  unfold indexBy
  have : (fetched.filterMap id).filter (fun r => r.html_url == fw.repoURL) = [] := by
    refine List.filter_eq_nil_iff.mpr ?_
    intro r hr
    simpa using h r hr
  rw [this]
  rfl

/-- Witness for C10: one successful fetch whose `html_url` carries a
trailing slash the authored `repoURL` lacks. -/
theorem c10_indexed_by_html_url_witness :
    (statsRow (indexBy RepoInfo.html_url ([some exRepoSlash].filterMap id)) exFwA).drop 3 =
      [noValue, noValue, noValue, noValue] :=
  c10_indexed_by_html_url [some exRepoSlash] exFwA (by decide)

/-- C3 counterexample: the license name `"Apache License 2.0"` does not end
with `" License"`, yet the rendered License cell changes it to
`"Apache 2.0"`, because the code removes the first occurrence of the text
anywhere in the name, not only a suffix. -/
theorem c3_counterexample :
    stripLicense "Apache License 2.0" = "Apache 2.0"
  ∧ (" License".data.isSuffixOf "Apache License 2.0".data) = false
  ∧ (statsRow (indexBy RepoInfo.html_url [exRepoApache]) exFwA).getLast? =
      some "Apache 2.0" := by
  refine ⟨rfl, by decide, rfl⟩

/-- C3 (amended): the License column renders the license name with the
first occurrence of the substring `" License"` removed, wherever it occurs,
and renders the name unchanged when the name does not contain that
substring. -/
theorem c3_strips_first_occurrence (s : String) (pre suf : List Char) :
    (containsSub " License".data s.data = false → stripLicense s = s)
  ∧ ((∀ i, i < pre.length →
        leadMatch " License".data ((pre ++ " License".data ++ suf).drop i) = false) →
      removeFirstList " License".data (pre ++ " License".data ++ suf) = pre ++ suf) := by
  constructor
  · intro h
    unfold stripLicense removeFirst
    congr 1
    exact removeFirstList_of_not_containsSub _ _ h
  · intro h
    exact removeFirstList_first_occurrence pre suf " License".data h

/-- Witness for C3 (amended): a name with no occurrence is unchanged, and
the Apache name loses exactly its first `" License"` occurrence. -/
theorem c3_strips_first_occurrence_witness :
    stripLicense "WTFPL" = "WTFPL"
  ∧ removeFirstList " License".data ("Apache".data ++ " License".data ++ " 2.0".data) =
      "Apache".data ++ " 2.0".data :=
  ⟨(c3_strips_first_occurrence "WTFPL" [] []).1 (by decide),
   (c3_strips_first_occurrence "" "Apache".data " 2.0".data).2 (by decide)⟩

set_option maxRecDepth 40000 in
/-- C1 counterexample: with exactly three frameworks missing the alert,
the rendered call-out comma-joins the links with `", and "` before the
last one, and is not the `"A and B and C"` form the claim predicts (the
source `switch` dispatches on the interspersed list's length, so its
`case 3` fires for two missing frameworks, not three). -/
theorem c1_counterexample :
    missingFrameworksBlock [exFwA, exFwB, exFwC] exDescA =
      quote ("[A](https://github.com/a/a), [B](https://github.com/b/b), and [C](https://github.com/c/c)" ++
        " appear to be missing an Alert component. " ++ pleaseFileIssue ++ " if one now exists.\n")
  ∧ missingFrameworksBlock [exFwA, exFwB, exFwC] exDescA ≠
      quote ("[A](https://github.com/a/a) and [B](https://github.com/b/b) and [C](https://github.com/c/c)" ++
        " appear to be missing an Alert component. " ++ pleaseFileIssue ++ " if one now exists.\n") :=
  ⟨rfl, by decide⟩

/-- C1 (amended): when exactly 3 frameworks are missing a component the
rendered list of framework links is joined as `"A, B, and C"` — comma-join
with `", and "` before the final item, the same shape as the 4+ case —
while the plain `" and "` join fires when exactly 2 frameworks are
missing. -/
theorem c1_three_item_list_grammar (a b c : String) :
    String.join (grammarStage (List.intersperse ", " [a, b, c])) = a ++ ", " ++ b ++ ", and " ++ c
  ∧ String.join (grammarStage (List.intersperse ", " [a, b])) = a ++ " and " ++ b :=
  ⟨rfl, rfl⟩

/-- C2 counterexample: for a descriptor with exactly one option the header
row is `["Framework", "Name", optionName]` — the claim misses the `"Name"`
column — so its length is 3, not 1 plus the option count. -/
theorem c2_counterexample :
    headersOf exDescA = ["Framework", "Name", "closable"]
  ∧ exDescA.optionsById.length = 1
  ∧ (headersOf exDescA).length ≠ 1 + exDescA.optionsById.length :=
  ⟨rfl, rfl, by decide⟩

/-- C2 (amended): for every descriptor the feature-matrix header row is
`["Framework", "Name", ...option names sorted by name]`, so its length is
2 plus the number of options, and every body row's length equals the
header's length. -/
theorem c2_header_and_row_lengths (desc : ComponentInfo) (frameworks : List Framework) :
    headersOf desc = "Framework" :: "Name" :: (optionsArrayOf desc).map (fun oi => oi.name)
  ∧ (headersOf desc).length = 2 + desc.optionsById.length
  ∧ ((rowsFor desc frameworks).all (fun row => row.length == (headersOf desc).length)) = true := by
  have hlen : (optionsArrayOf desc).length = desc.optionsById.length := by
    unfold optionsArrayOf
    rw [length_sortByName]
    simp
  refine ⟨rfl, ?_, ?_⟩
  · simp only [headersOf, List.length_append, List.length_map, List.length_cons, List.length_nil]
    omega
  · refine List.all_eq_true.mpr ?_
    intro row hrow
    rcases List.mem_map.mp hrow with ⟨ec, _, hec⟩
    subst hec
    simp [rowFor, headersOf]

/-- Membership in the plucked present ids, characterized through the
frameworks and their components. -/
theorem mem_presentIds {frameworks : List Framework} {cid fid : String} :
    fid ∈ presentIds frameworks cid ↔
      ∃ fw ∈ frameworks, fw.frameworkId = fid ∧
        ∃ c ∈ fw.components, c.componentId = cid := by
  unfold presentIds enhancedComponents
  simp only [List.mem_map, List.mem_filter, List.mem_flatMap]
  constructor
  · rintro ⟨ec, ⟨⟨fw, hfw, c, hcmem, hc'⟩, hcid⟩, hfid⟩
    subst hc'
    exact ⟨fw, hfw, hfid, c, hcmem, by simpa [enhance] using hcid⟩
  · rintro ⟨fw, hfw, hfid, c, hcmem, hcid⟩
    exact ⟨enhance fw c, ⟨⟨fw, hfw, c, hcmem, rfl⟩,
      by simpa [enhance] using hcid⟩, hfid ▸ rfl⟩

/-- Under unique framework ids, the code's membership test of a
framework's id among the present ids agrees with that framework itself
implementing the component. -/
theorem contains_presentIds_eq_implements {frameworks : List Framework} {cid : String}
    (hnd : (frameworks.map (fun fw => fw.frameworkId)).Nodup)
    {fw : Framework} (hfw : fw ∈ frameworks) :
    (presentIds frameworks cid).contains fw.frameworkId = implementsComponent fw cid := by
  cases himp : implementsComponent fw cid with
  | true =>
    rcases List.any_eq_true.mp himp with ⟨c, hcmem, hcid⟩
    refine List.elem_eq_true_of_mem (mem_presentIds.mpr ?_)
    exact ⟨fw, hfw, rfl, c, hcmem, by simpa using hcid⟩
  | false =>
    by_contra hc
    have hct : (presentIds frameworks cid).contains fw.frameworkId = true := by
      cases hcc : (presentIds frameworks cid).contains fw.frameworkId with
      | true => rfl
      | false => exact absurd hcc hc
    have hmem : fw.frameworkId ∈ presentIds frameworks cid := by simpa using hct
    rcases mem_presentIds.mp hmem with ⟨fw', hfw', hfid, c, hcmem, hcid⟩
    have : fw' = fw := List.inj_on_of_nodup_map hnd hfw' hfw (by simp [hfid])
    subst this
    have : implementsComponent fw' cid = true :=
      List.any_eq_true.mpr ⟨c, hcmem, by simpa using hcid⟩
    simp_all

/-- Under unique ids, the rejection filter of the code coincides with the
complement of the claim-level implements predicate. -/
theorem missingList_eq_filter_not_implements {frameworks : List Framework} {cid : String}
    (hnd : (frameworks.map (fun fw => fw.frameworkId)).Nodup) :
    missingList frameworks cid =
      frameworks.filter (fun fw => !implementsComponent fw cid) := by
  unfold missingList
  refine List.filter_congr ?_
  intro fw hfw
  rw [contains_presentIds_eq_implements hnd hfw]

/-- C4: the computed missing-frameworks list is the exact complement of
the frameworks implementing the component: together they permute the whole
collection, their intersection is empty, and the missing list is a sublist
of the frameworks collection, preserving its order.  Unique framework ids
(the data model's identity invariant) are assumed. -/
theorem c4_missing_is_complement (frameworks : List Framework) (cid : String)
    (hnd : (frameworks.map (fun fw => fw.frameworkId)).Nodup) :
    List.Perm (missingList frameworks cid ++ presentList frameworks cid) frameworks
  ∧ (missingList frameworks cid).inter (presentList frameworks cid) = []
  ∧ List.Sublist (missingList frameworks cid) frameworks := by
  refine ⟨?_, ?_, ?_⟩
  · rw [missingList_eq_filter_not_implements hnd]
    unfold presentList
    exact (List.perm_append_comm).trans (List.filter_append_perm _ frameworks)
  · simp only [List.inter]
    refine List.filter_eq_nil_iff.mpr ?_
    intro fw hfw
    rw [missingList_eq_filter_not_implements hnd] at hfw
    rcases List.mem_filter.mp hfw with ⟨_, hnimp⟩
    simp only [List.elem_eq_mem, decide_eq_true_eq]
    intro hmem
    rcases List.mem_filter.mp hmem with ⟨_, himp⟩
    simp_all
  · unfold missingList
    exact List.filter_sublist frameworks

/-- Witness for C4 at a two-framework collection where exactly one
implements the alert. -/
theorem c4_missing_is_complement_witness :
    List.Perm (missingList [exFwA2, exFwB] "alert" ++ presentList [exFwA2, exFwB] "alert")
      [exFwA2, exFwB]
  ∧ (missingList [exFwA2, exFwB] "alert").inter (presentList [exFwA2, exFwB] "alert") = []
  ∧ List.Sublist (missingList [exFwA2, exFwB] "alert") [exFwA2, exFwB] :=
  c4_missing_is_complement [exFwA2, exFwB] "alert" (by decide)

/-- C6: when no framework is missing a component, the missing-frameworks
stage contributes the empty block — not an empty quote — and the line
joiner drops it from the assembled section. -/
theorem c6_empty_missing_no_block (frameworks : List Framework) (desc : ComponentInfo)
    (pre post : List String) (h : missingList frameworks desc.componentId = []) :
    missingFrameworksBlock frameworks desc = ""
  ∧ lines (pre ++ missingFrameworksBlock frameworks desc :: post) = lines (pre ++ post) := by
  have hblock : missingFrameworksBlock frameworks desc = "" := by
    unfold missingFrameworksBlock
    rw [h]
    rfl
  refine ⟨hblock, ?_⟩
  rw [hblock]
  simp [lines, List.filter_append, List.filter_cons]

/-- Witness for C6 at a collection whose only framework implements the
alert. -/
theorem c6_empty_missing_no_block_witness :
    missingFrameworksBlock [exFwA2] exDescA = ""
  ∧ lines (["x"] ++ missingFrameworksBlock [exFwA2] exDescA :: ["y"]) = lines (["x"] ++ ["y"]) :=
  c6_empty_missing_no_block [exFwA2] exDescA ["x"] ["y"] (by decide)

/-- A string appending onto a positive-length string has positive
length. -/
theorem length_append_pos_left (a b : String) (h : 0 < a.length) : 0 < (a ++ b).length := by
  rw [String.length_append]
  omega

/-- A string appended after anything keeps the total length positive. -/
theorem length_append_pos_right (a b : String) (h : 0 < b.length) : 0 < (a ++ b).length := by
  rw [String.length_append]
  omega

/-- The final stages of the missing-frameworks pipeline on a nonempty
link list: the guard fires and the block quotes the joined grammar output
followed by the sentence, whose verb agrees with the link count. -/
theorem renderMissing_of_ne (desc : ComponentInfo) (links : List String) (h : links ≠ []) :
    renderMissing desc links =
      quote (String.join (grammarStage (List.intersperse ", " links)) ++ " appear" ++
        (if links.length == 1 then "s" else "") ++ " to be missing " ++
        desc.indefiniteArticle ++ " " ++ desc.cannonicalName ++ " component. " ++
        pleaseFileIssue ++ " if one now exists.\n") := by
  have hn : 0 < links.length := List.length_pos.mpr h
  have hes : (List.intersperse ", " links).length = 2 * links.length - 1 :=
    length_intersperse_of_ne ", " links h
  have hgl : (grammarStage (List.intersperse ", " links)).length = 2 * links.length - 1 := by
    rw [length_grammarStage, hes]
  have hif : ((grammarStage (List.intersperse ", " links)).length == 1) = (links.length == 1) := by
    rw [hgl]
    by_cases hl1 : links.length = 1
    · rw [hl1]
    · rw [beq_eq_false_iff_ne.mpr (by omega), beq_eq_false_iff_ne.mpr hl1]
  unfold renderMissing sentenceStage
  rw [hif]
  rw [if_pos (show (grammarStage (List.intersperse ", " links)).length > 0 by omega)]
  rw [join_append_single]
  rw [if_pos (length_append_pos_right _ _ (by
    repeat apply length_append_pos_left
    decide))]
  simp [String.append_assoc]

/-- C8: for every nonempty missing list the appended sentence uses
`"appears"` exactly when one framework is missing and `"appear"`
otherwise, and the indefinite article and canonical name are spliced in
verbatim from the descriptor. -/
theorem c8_pluralization_and_article (frameworks : List Framework) (desc : ComponentInfo)
    (h : missingList frameworks desc.componentId ≠ []) :
    missingFrameworksBlock frameworks desc =
      quote (String.join (grammarStage (List.intersperse ", "
          ((missingList frameworks desc.componentId).map
            (fun fw => link fw.frameworkName fw.repoURL)))) ++
        " appear" ++ (if (missingList frameworks desc.componentId).length == 1 then "s" else "") ++
        " to be missing " ++ desc.indefiniteArticle ++ " " ++ desc.cannonicalName ++
        " component. " ++ pleaseFileIssue ++ " if one now exists.\n") := by
  unfold missingFrameworksBlock
  rw [renderMissing_of_ne desc _ (by simpa using h), List.length_map]

/-- Witness for C8: one missing framework yields `"appears"`, two missing
frameworks yield `"appear"`, both with the descriptor's article `"an"`. -/
theorem c8_pluralization_and_article_witness :
    missingFrameworksBlock [exFwA] exDescA =
      "> [A](https://github.com/a/a) appears to be missing an Alert component. [Please file an issue](https://github.com/dimitropoulos/react-ui-roundup/issues/new) if one now exists.\n"
  ∧ missingFrameworksBlock [exFwA, exFwB] exDescA =
      "> [A](https://github.com/a/a) and [B](https://github.com/b/b) appear to be missing an Alert component. [Please file an issue](https://github.com/dimitropoulos/react-ui-roundup/issues/new) if one now exists.\n" := by
  constructor
  · rw [c8_pluralization_and_article [exFwA] exDescA (by decide)]
    rfl
  · rw [c8_pluralization_and_article [exFwA, exFwB] exDescA (by decide)]
    rfl

/-- Enhancement leaves the component id unchanged. -/
@[simp] theorem enhance_componentId (fw : Framework) (c : Component) :
    (enhance fw c).componentId = c.componentId := rfl

/-- Filtering components on a predicate of their id commutes with
enhancement. -/
theorem filter_map_enhance (fw : Framework) (pb : String → Bool) (cs : List Component) :
    (cs.filter (fun c => pb c.componentId)).map (enhance fw) =
      (cs.map (enhance fw)).filter (fun ec => pb ec.componentId) := by
  induction cs with
  | nil => rfl
  | cons c rest ih =>
    cases hc : pb c.componentId <;>
      simp [List.filter_cons, hc, ih]

/-- Erasing a component id from every framework filters exactly the
corresponding entries out of the enhanced collection. -/
theorem enhancedComponents_erase (cid : String) (fws : List Framework) :
    enhancedComponents (eraseComponentId cid fws) =
      (enhancedComponents fws).filter (fun ec => !(ec.componentId == cid)) := by
  induction fws with
  | nil => rfl
  | cons fw rest ih =>
    simp only [enhancedComponents, eraseComponentId, List.map_cons, List.flatMap_cons,
      List.filter_append] at ih ⊢
    rw [← ih]
    congr 1
    exact filter_map_enhance fw (fun s => !(s == cid)) fw.components

/-- The body rows of a descriptor's table ignore components whose id was
erased, provided the erased id is not the descriptor's. -/
theorem rowsFor_erase (desc : ComponentInfo) (cid : String) (fws : List Framework)
    (hne : (desc.componentId == cid) = false) :
    rowsFor desc (eraseComponentId cid fws) = rowsFor desc fws := by
  unfold rowsFor
  rw [enhancedComponents_erase, List.filter_filter]
  congr 1
  apply List.filter_congr
  intro ec _
  cases ha : (ec.componentId == desc.componentId) with
  | false => simp [ha]
  | true =>
    have he : ec.componentId = desc.componentId := beq_iff_eq.mp ha
    simp [ha, he, hne]

/-- The plucked present ids ignore erased component entries of a different
id. -/
theorem presentIds_erase (cid cid' : String) (fws : List Framework)
    (hne : (cid' == cid) = false) :
    presentIds (eraseComponentId cid fws) cid' = presentIds fws cid' := by
  unfold presentIds
  rw [enhancedComponents_erase, List.filter_filter]
  congr 1
  apply List.filter_congr
  intro ec _
  cases ha : (ec.componentId == cid') with
  | false => simp [ha]
  | true =>
    have he : ec.componentId = cid' := beq_iff_eq.mp ha
    simp [ha, he, hne]

/-- Mapping a framework projection over a filter commutes with a
per-framework rewrite that changes neither the filter nor the
projection. -/
theorem filter_map_framework_proj (fws : List Framework) (g : Framework → Framework)
    (pb : Framework → Bool) (proj : Framework → String)
    (hp : ∀ fw, pb (g fw) = pb fw) (hproj : ∀ fw, proj (g fw) = proj fw) :
    ((fws.map g).filter pb).map proj = (fws.filter pb).map proj := by
  induction fws with
  | nil => rfl
  | cons fw rest ih =>
    simp only [List.map_cons, List.filter_cons, hp]
    cases hpf : pb fw <;> simp [hpf, hproj, ih]

/-- The missing-frameworks block is unchanged by erasing a component id
different from the descriptor's. -/
theorem missingBlock_erase (desc : ComponentInfo) (cid : String) (fws : List Framework)
    (hne : (desc.componentId == cid) = false) :
    missingFrameworksBlock (eraseComponentId cid fws) desc =
      missingFrameworksBlock fws desc := by
  unfold missingFrameworksBlock missingList
  rw [presentIds_erase cid desc.componentId fws hne]
  congr 1
  exact filter_map_framework_proj fws _ _ _ (fun fw => rfl) (fun fw => rfl)

/-- One descriptor's whole block list is unchanged by erasing a different
component id. -/
theorem componentBlocksFor_erase (desc : ComponentInfo) (cid : String) (fws : List Framework)
    (hne : (desc.componentId == cid) = false) :
    componentBlocksFor desc (eraseComponentId cid fws) = componentBlocksFor desc fws := by
  unfold componentBlocksFor
  rw [rowsFor_erase desc cid fws hne, missingBlock_erase desc cid fws hne]

/-- C7: a component whose `componentId` occurs in no descriptor of the
registry contributes nothing: erasing all such entries leaves the rendered
`Components` section byte-identical, so the entry is silently dropped from
every descriptor's table and the render (a total function) completes. -/
theorem c7_orphan_component_dropped (registry : List ComponentInfo) (fws : List Framework)
    (cid : String) (h : registry.all (fun d => !(d.componentId == cid)) = true) :
    componentsMarkdown registry (eraseComponentId cid fws) =
      componentsMarkdown registry fws := by
  unfold componentsMarkdown
  congr 2
  induction registry with
  | nil => rfl
  | cons d rest ih =>
    rw [List.all_cons, Bool.and_eq_true] at h
    simp only [List.flatMap_cons]
    rw [componentBlocksFor_erase d cid fws (by simpa using h.1), ih h.2]

/-- Witness for C7: a registry with only the alert descriptor and a
framework carrying an orphan `"zorph"` component. -/
theorem c7_orphan_component_dropped_witness :
    componentsMarkdown [exDescA] (eraseComponentId "zorph" [exFwA3]) =
      componentsMarkdown [exDescA] [exFwA3] :=
  c7_orphan_component_dropped [exDescA] [exFwA3] "zorph" (by decide)

/-- A level-1 heading is never the empty block. -/
theorem h1_beq_empty_eq_false (x : String) : (h1 x == "") = false :=
  append_beq_empty_eq_false "# " x (by decide)

/-- A level-2 heading is never the empty block. -/
theorem h2_beq_empty_eq_false (x : String) : (h2 x == "") = false :=
  append_beq_empty_eq_false "## " x (by decide)

/-- A nonempty leading block survives the joiner at the front. -/
theorem lines_head (b : String) (bs : List String) (hb : (b == "") = false) :
    ∃ t, lines (b :: bs) = b ++ t := by
  unfold lines
  rw [List.filter_cons]
  simp only [hb, Bool.not_false, if_true]
  cases hf : bs.filter (fun x => !(x == "")) with
  | nil => exact ⟨"", by simp [joinBlocks]⟩
  | cons y ys => exact ⟨"\n\n" ++ joinBlocks (y :: ys), by simp [joinBlocks, String.append_assoc]⟩

/-- The joiner on three nonempty blocks separates them with blank
lines. -/
theorem lines_three (a b c : String) (ha : (a == "") = false) (hb : (b == "") = false)
    (hc : (c == "") = false) :
    lines [a, b, c] = a ++ "\n\n" ++ b ++ "\n\n" ++ c := by
  unfold lines
  simp [List.filter_cons, ha, hb, hc, joinBlocks, String.append_assoc]

/-- The joiner on four nonempty blocks separates them with blank lines. -/
theorem lines_four (a b c d : String) (ha : (a == "") = false) (hb : (b == "") = false)
    (hc : (c == "") = false) (hd : (d == "") = false) :
    lines [a, b, c, d] = a ++ "\n\n" ++ b ++ "\n\n" ++ c ++ "\n\n" ++ d := by
  unfold lines
  simp [List.filter_cons, ha, hb, hc, hd, joinBlocks, String.append_assoc]

/-- C9: the rendered report is one document in fixed order — header, then
the Frameworks section (its statistics section before its features
section), then the Components section, then the "How to Make a Change"
footer — each section opening with its own heading. -/
theorem c9_fixed_section_order (fetched : List (Option RepoInfo)) (now : String)
    (fws : List Framework) (registry : List ComponentInfo)
    (fwInfo : List FrameworkFeature) (repoInfo : String → Option RepoInfo) :
    readmeDoc fetched now fws registry fwInfo =
      headerMarkdown ++ "\n\n" ++
      frameworksMarkdown (indexBy RepoInfo.html_url (fetched.filterMap id)) now fws fwInfo ++
      "\n\n" ++ componentsMarkdown registry fws ++ "\n\n" ++ howToMakeAChange
  ∧ frameworksMarkdown repoInfo now fws fwInfo =
      h1 "Frameworks" ++ "\n\n" ++ frameworksSectionMarkdown repoInfo now fws ++ "\n\n" ++
      frameworkFeaturesSectionMarkdown fwInfo fws
  ∧ (∃ t, frameworksSectionMarkdown repoInfo now fws = h2 "Framework Statistics" ++ t)
  ∧ (∃ t, frameworkFeaturesSectionMarkdown fwInfo fws = h2 "Framework Features" ++ t)
  ∧ (∃ t, componentsMarkdown registry fws = h1 "Components" ++ t)
  ∧ (∃ t, headerMarkdown = h1 "React UI Roundup" ++ t)
  ∧ (∃ t, howToMakeAChange = h1 "How to Make a Change" ++ t) := by
  have hstats : ∃ t, frameworksSectionMarkdown repoInfo now fws = h2 "Framework Statistics" ++ t :=
    lines_head (h2 "Framework Statistics") _ (h2_beq_empty_eq_false _)
  have hfeat : ∃ t, frameworkFeaturesSectionMarkdown fwInfo fws = h2 "Framework Features" ++ t :=
    lines_head (h2 "Framework Features") _ (h2_beq_empty_eq_false _)
  have hcomp : ∃ t, componentsMarkdown registry fws = h1 "Components" ++ t :=
    lines_head (h1 "Components") _ (h1_beq_empty_eq_false _)
  have hheader : ∃ t, headerMarkdown = h1 "React UI Roundup" ++ t :=
    lines_head (h1 "React UI Roundup") _ (h1_beq_empty_eq_false _)
  have hhow : ∃ t, howToMakeAChange = h1 "How to Make a Change" ++ t :=
    lines_head (h1 "How to Make a Change") _ (h1_beq_empty_eq_false _)
  have hstats_ne : ∀ ri : String → Option RepoInfo,
      (frameworksSectionMarkdown ri now fws == "") = false := by
    intro ri
    obtain ⟨t, ht⟩ :=
      lines_head (h2 "Framework Statistics")
        [table ["Name", "Homepage", "Repository", "Stars", "Forks", "Issues", "License"]
          (fws.map (statsRow ri)),
         quote ("all of the above statistics were last updated " ++ now ++
           ".  For real-time data, " ++ link "see the website" websiteHref ++ ".")]
        (h2_beq_empty_eq_false _)
    rw [show frameworksSectionMarkdown ri now fws = h2 "Framework Statistics" ++ t from ht]
    exact append_beq_empty_eq_false _ _ (h2_beq_empty_eq_false _)
  have hfeat_ne : (frameworkFeaturesSectionMarkdown fwInfo fws == "") = false := by
    obtain ⟨t, ht⟩ := hfeat
    rw [ht]
    exact append_beq_empty_eq_false _ _ (h2_beq_empty_eq_false _)
  have hfm : ∀ ri : String → Option RepoInfo,
      frameworksMarkdown ri now fws fwInfo =
        h1 "Frameworks" ++ "\n\n" ++ frameworksSectionMarkdown ri now fws ++ "\n\n" ++
        frameworkFeaturesSectionMarkdown fwInfo fws := by
    intro ri
    exact lines_three _ _ _ (h1_beq_empty_eq_false _) (hstats_ne ri) hfeat_ne
  have hfm_ne : (frameworksMarkdown (indexBy RepoInfo.html_url (fetched.filterMap id))
      now fws fwInfo == "") = false := by
    rw [hfm _]
    apply append_beq_empty_eq_false
    apply append_beq_empty_eq_false
    apply append_beq_empty_eq_false
    apply append_beq_empty_eq_false
    decide
  have hcomp_ne : (componentsMarkdown registry fws == "") = false := by
    obtain ⟨t, ht⟩ := hcomp
    rw [ht]
    exact append_beq_empty_eq_false _ _ (h1_beq_empty_eq_false _)
  have hheader_ne : (headerMarkdown == "") = false := by
    obtain ⟨t, ht⟩ := hheader
    rw [ht]
    exact append_beq_empty_eq_false _ _ (h1_beq_empty_eq_false _)
  have hhow_ne : (howToMakeAChange == "") = false := by
    obtain ⟨t, ht⟩ := hhow
    rw [ht]
    exact append_beq_empty_eq_false _ _ (h1_beq_empty_eq_false _)
  refine ⟨?_, hfm repoInfo, hstats, hfeat, hcomp, hheader, hhow⟩
  exact lines_four _ _ _ _ hheader_ne hfm_ne hcomp_ne hhow_ne

end RUR
